import Mathlib

/-!
Verification development for the meme-coin aggregator service.

The TypeScript sources are embedded shallowly:
* JavaScript numbers are modelled as rationals (`ℚ`); the programs under
  study only compare, add, subtract, multiply and divide finite values,
  so exact rational arithmetic is a faithful abstraction.
* A JavaScript `Map` is modelled as an association list in insertion
  order (`jsGet` / `jsSet`), matching `Map.prototype.get` / `set`
  (set replaces in place when the key exists, else appends).
* A JavaScript `Set` of strings is a duplicate-free list in insertion
  order (`jsSetDedup`, `setAdd`, `setDelete`).
* Falsy-value defaulting (`x || y`) becomes `orQ` / `orS` / `optOrQ` /
  `optOrS` (`0`, `""` and `undefined` are the falsy values that occur).
* `new Date().toISOString()` / `Date.now()` become explicit `now`
  parameters.
-/

namespace MemeAgg

/-- JavaScript `a || b` for numbers: `a` unless it is falsy (`0`). -/
def orQ (a b : ℚ) : ℚ := if a = 0 then b else a

/-- JavaScript `a || b` for strings: `a` unless it is falsy (`""`). -/
def orS (a b : String) : String := if a = "" then b else a

/-- JavaScript `a || b` where `a` is possibly `undefined` (a number). -/
def optOrQ (a : Option ℚ) (b : ℚ) : ℚ :=
  match a with
  | some q => orQ q b
  | none => b

/-- JavaScript `a || b` where `a` is possibly `undefined` (a string). -/
def optOrS (a : Option String) (b : String) : String :=
  match a with
  | some s => orS s b
  | none => b

/-- Model of `String.prototype.toLowerCase`, written over the character list so
that it evaluates by kernel reduction. -/
def jsToLower (s : String) : String := String.mk (s.data.map Char.toLower)

/-- Model of `[...new Set(list)]`: duplicates removed, first occurrence kept,
insertion order preserved. -/
def jsSetDedup (l : List String) : List String :=
  l.foldl (fun acc s => if s ∈ acc then acc else acc ++ [s]) []

/-- Model of `Map.prototype.get` over an insertion-ordered association list. -/
def jsGet {α : Type} : List (String × α) → String → Option α
  | [], _ => none
  | p :: rest, k => if p.1 = k then some p.2 else jsGet rest k

/-- Model of `Map.prototype.set`: replace in place if the key is present,
otherwise append the new entry. -/
def jsSet {α : Type} : List (String × α) → String → α → List (String × α)
  | [], k, v => [(k, v)]
  | p :: rest, k, v => if p.1 = k then (k, v) :: rest else p :: jsSet rest k v

/-- Keys of an association list, in order. -/
def jsKeys {α : Type} (m : List (String × α)) : List String :=
  m.map (fun p => p.1)

/-- Canonical token record: `TokenData` of `src/types/index.ts`
(the current interface, with USD fields). -/
structure TokenData where
  token_address : String
  token_name : String
  token_ticker : String
  price : ℚ
  priceChange1h : ℚ
  priceChange6h : ℚ
  priceChange24h : ℚ
  priceChangePercentage24h : ℚ
  marketCap : ℚ
  marketCapChange24h : ℚ
  marketCapChangePercentage24h : ℚ
  volume24h : ℚ
  circulatingSupply : ℚ
  totalSupply : ℚ
  liquidity : ℚ
  high_24h : ℚ
  low_24h : ℚ
  transaction_count : ℚ
  ath : ℚ
  athChangePercentage : ℚ
  athDate : String
  atl : ℚ
  atlChangePercentage : ℚ
  atlDate : String
  roi : Option ℚ
  dex : String
  dexUrl : String
  image : String
  rank : Option ℚ
  source : List String
  lastUpdated : String
  is_merged : Bool
deriving DecidableEq

/-- Constant `config.aggregation.batchSize` (default 50). -/
def batchSize : ℕ := 50

/-- Constant `config.aggregation.maxTokens` (default 1000). -/
def maxTokens : ℕ := 1000

/-- Constant `config.redis.ttl` (default 30 seconds). -/
def defaultTtl : ℕ := 30

/-- The validity filter both adapters apply:
`token.token_address.length > 0 && token.price > 0`
(`validToken` of `DataAggregratorUtils.ts`). -/
def validToken (t : TokenData) : Bool :=
  decide (t.token_address.length > 0) && decide (t.price > 0)

/-- Model of `DataAggregatorService.mergeTokenData` (private method, lines
218–273): field-precedence fusion of two same-address records. The
`now` parameter stands for `new Date().toISOString()`. -/
def mergeTokenData (now : String) (tokenA tokenB : TokenData) : TokenData :=
  let isADexScreener := tokenA.source.contains "dexscreener"
  let isBCoinGecko := tokenB.source.contains "coingecko"
  let dexToken := if isADexScreener then tokenA else (if isBCoinGecko then tokenB else tokenA)
  let cgToken := if isBCoinGecko then tokenB else (if isADexScreener then tokenA else tokenB)
  { token_address := orS dexToken.token_address cgToken.token_address
    token_name := orS dexToken.token_name cgToken.token_name
    token_ticker := orS dexToken.token_ticker cgToken.token_ticker
    price := orQ dexToken.price cgToken.price
    priceChange1h := dexToken.priceChange1h
    priceChange6h := dexToken.priceChange6h
    priceChange24h := orQ cgToken.priceChange24h dexToken.priceChange24h
    priceChangePercentage24h := cgToken.priceChangePercentage24h
    marketCap := orQ cgToken.marketCap dexToken.marketCap
    marketCapChange24h := cgToken.marketCapChange24h
    marketCapChangePercentage24h := cgToken.marketCapChangePercentage24h
    volume24h := orQ dexToken.volume24h cgToken.volume24h
    circulatingSupply := cgToken.circulatingSupply
    totalSupply := cgToken.totalSupply
    liquidity := dexToken.liquidity
    high_24h := cgToken.high_24h
    low_24h := cgToken.low_24h
    transaction_count := dexToken.transaction_count
    ath := cgToken.ath
    athChangePercentage := cgToken.athChangePercentage
    athDate := cgToken.athDate
    atl := cgToken.atl
    atlChangePercentage := cgToken.atlChangePercentage
    atlDate := cgToken.atlDate
    roi := cgToken.roi
    dex := dexToken.dex
    dexUrl := dexToken.dexUrl
    image := orS dexToken.image cgToken.image
    rank := cgToken.rank
    source := jsSetDedup (tokenA.source ++ tokenB.source)
    lastUpdated := now
    is_merged := true }

/-- One step of the `forEach` body of `DataAggregatorService.mergeTokens`:
key the token by its lowercased address, skip empty keys, merge into an
existing entry or insert the token with `is_merged = false`. -/
def insertToken (now : String) (m : List (String × TokenData)) (token : TokenData) :
    List (String × TokenData) :=
  let key := jsToLower token.token_address
  if key = "" then m
  else
    match jsGet m key with
    | some existing => jsSet m key (mergeTokenData now existing token)
    | none => jsSet m key { token with is_merged := false }

/-- Insertion step of a descending sort by `volume24h`, modelling the
comparator `(b.volume24h || 0) - (a.volume24h || 0)` (`|| 0` is the
identity here because every modelled record carries a number). -/
def insertByVolumeDesc (t : TokenData) : List TokenData → List TokenData
  | [] => [t]
  | x :: xs => if x.volume24h ≤ t.volume24h then t :: x :: xs else x :: insertByVolumeDesc t xs

/-- Model of `Array.prototype.sort` with the descending-volume comparator,
modelled as an insertion sort (a sorting permutation). -/
def sortByVolumeDesc (l : List TokenData) : List TokenData :=
  l.foldr insertByVolumeDesc []

/-- Model of `DataAggregatorService.mergeTokens` (lines 195–216): flatten the
per-source lists, group by lowercase address into a `Map` (merging
same-key records), then sort by volume descending and truncate to
`maxTokens`. -/
def mergeTokens (now : String) (tokensArrays : List (List TokenData)) : List TokenData :=
  let tokenMap := tokensArrays.flatten.foldl (insertToken now) []
  (sortByVolumeDesc (tokenMap.map (fun p => p.2))).take maxTokens

/-- The `baseToken` object of one DexScreener pair. Absent JSON fields
are `none`. -/
structure DsBaseToken where
  address : Option String
  name : Option String
  symbol : Option String
deriving DecidableEq

/-- One element of `response.data.pairs` from the DexScreener search
endpoint, restricted to the fields the adapter reads. Nested optional
paths (`priceChange?.h1`, `volume?.h24`, `liquidity?.usd`,
`txns?.h24?.buys`, `info?.imageUrl`) are flattened to options. -/
structure DsPair where
  baseToken : Option DsBaseToken
  priceUsd : Option ℚ
  priceChange_h1 : Option ℚ
  priceChange_h6 : Option ℚ
  priceChange_h24 : Option ℚ
  fdv : Option ℚ
  volume_h24 : Option ℚ
  liquidity_usd : Option ℚ
  txns_h24_buys : Option ℚ
  txns_h24_sells : Option ℚ
  dexId : Option String
  url : Option String
  info_imageUrl : Option String
  pairCreatedAt : Option String
deriving DecidableEq

/-- One element of the CoinGecko `/coins/markets` response, restricted
to the fields the adapter reads. `id` is always present (the adapter
uses it unguarded). -/
structure CgToken where
  id : String
  name : Option String
  symbol : Option String
  current_price : Option ℚ
  price_change_24h : Option ℚ
  price_change_percentage_24h : Option ℚ
  market_cap : Option ℚ
  market_cap_change_24h : Option ℚ
  market_cap_change_percentage_24h : Option ℚ
  total_volume : Option ℚ
  circulating_supply : Option ℚ
  total_supply : Option ℚ
  high_24h : Option ℚ
  low_24h : Option ℚ
  ath : Option ℚ
  ath_change_percentage : Option ℚ
  ath_date : Option String
  atl : Option ℚ
  atl_change_percentage : Option ℚ
  atl_date : Option String
  roi : Option ℚ
  image : Option String
  market_cap_rank : Option ℚ
  last_updated : Option String
deriving DecidableEq

/-- The DTO→Token mapping inside `fetchFromDexScreener` (lines 61–110;
also `mapDexScreenerToken` of `DataAggregratorUtils.ts`). -/
def mapDexScreenerToken (now : String) (dsToken : DsPair) : TokenData :=
  let base := dsToken.baseToken.getD { address := none, name := none, symbol := none }
  { token_address := optOrS (base.address.map jsToLower) ""
    token_name := optOrS base.name "Unknown"
    token_ticker := optOrS base.symbol "UNKNOWN"
    price := optOrQ dsToken.priceUsd 0
    priceChange1h := optOrQ dsToken.priceChange_h1 0
    priceChange6h := optOrQ dsToken.priceChange_h6 0
    priceChange24h := optOrQ dsToken.priceChange_h24 0
    priceChangePercentage24h := 0
    marketCap := optOrQ dsToken.fdv 0
    marketCapChange24h := 0
    marketCapChangePercentage24h := 0
    volume24h := optOrQ dsToken.volume_h24 0
    circulatingSupply := 0
    totalSupply := 0
    liquidity := optOrQ dsToken.liquidity_usd 0
    high_24h := 0
    low_24h := 0
    transaction_count := optOrQ dsToken.txns_h24_buys 0 + optOrQ dsToken.txns_h24_sells 0
    ath := 0
    athChangePercentage := 0
    athDate := ""
    atl := 0
    atlChangePercentage := 0
    atlDate := ""
    roi := none
    dex := optOrS dsToken.dexId "Unknown"
    dexUrl := optOrS dsToken.url ""
    image := optOrS dsToken.info_imageUrl ""
    rank := none
    source := ["dexscreener"]
    lastUpdated := optOrS dsToken.pairCreatedAt now
    is_merged := false }

/-- The DTO→Token mapping inside `fetchFromGeckoTerminal` (lines
135–183; also `mapCoinGeckoToken` of `DataAggregratorUtils.ts`).
`symbol.toUpperCase()` is modelled with the character-wise map. -/
def mapCoinGeckoToken (now : String) (cgToken : CgToken) : TokenData :=
  { token_address := cgToken.id
    token_name := optOrS cgToken.name "Unknown"
    token_ticker := match cgToken.symbol with
      | some s => String.mk (s.data.map Char.toUpper)
      | none => "UNKNOWN"
    price := optOrQ cgToken.current_price 0
    priceChange1h := 0
    priceChange6h := 0
    priceChange24h := optOrQ cgToken.price_change_24h 0
    priceChangePercentage24h := optOrQ cgToken.price_change_percentage_24h 0
    marketCap := optOrQ cgToken.market_cap 0
    marketCapChange24h := optOrQ cgToken.market_cap_change_24h 0
    marketCapChangePercentage24h := optOrQ cgToken.market_cap_change_percentage_24h 0
    volume24h := optOrQ cgToken.total_volume 0
    circulatingSupply := optOrQ cgToken.circulating_supply 0
    totalSupply := optOrQ cgToken.total_supply 0
    liquidity := 0
    high_24h := optOrQ cgToken.high_24h 0
    low_24h := optOrQ cgToken.low_24h 0
    transaction_count := 0
    ath := optOrQ cgToken.ath 0
    athChangePercentage := optOrQ cgToken.ath_change_percentage 0
    athDate := optOrS cgToken.ath_date ""
    atl := optOrQ cgToken.atl 0
    atlChangePercentage := optOrQ cgToken.atl_change_percentage 0
    atlDate := optOrS cgToken.atl_date ""
    roi := cgToken.roi
    dex := "Various"
    dexUrl := ""
    image := optOrS cgToken.image ""
    rank := cgToken.market_cap_rank
    source := ["coingecko"]
    lastUpdated := optOrS cgToken.last_updated now
    is_merged := false }

/-- Model of `DataAggregatorService.fetchFromDexScreener` (lines 51–122) applied
to an already-parsed `pairs` array: `pairs.slice(0, batchSize)`, map to
canonical tokens, filter invalid rows. Rate limiting, retry and the
HTTP call itself are outside the shallow embedding. -/
def fetchFromDexScreener (now : String) (pairs : List DsPair) : List TokenData :=
  ((pairs.take batchSize).map (mapDexScreenerToken now)).filter validToken

/-- Model of `DataAggregatorService.fetchFromGeckoTerminal` (lines 124–194)
applied to an already-parsed token array: map to canonical tokens,
filter invalid rows. Note: no `slice` is applied here. -/
def fetchFromGeckoTerminal (now : String) (tokens : List CgToken) : List TokenData :=
  (tokens.map (mapCoinGeckoToken now)).filter validToken

/-- Model of `DataAggregatorService.getAllTokens` (lines 275–301):
`Promise.allSettled` over both fetches, keep the fulfilled results
(`none` = the fetch rejected after retries), merge. -/
def getAllTokens (now : String) (dexscreenerTokens geckoterminalTokens : Option (List TokenData)) :
    List TokenData :=
  let tokensArrays :=
    (match dexscreenerTokens with
     | some v => [v]
     | none => []) ++
    (match geckoterminalTokens with
     | some v => [v]
     | none => [])
  mergeTokens now tokensArrays

/-- A value stored in the Redis cache: the serialized full snapshot or
a serialized single token (JSON serialization is abstracted away). -/
inductive CacheVal where
  | tokenList (l : List TokenData)
  | singleToken (t : TokenData)
deriving DecidableEq

/-- The cache: key → (value, remaining TTL written by `setEx`). -/
def Cache : Type := List (String × (CacheVal × ℕ))

/-- Model of `redis.setEx(key, ttl, value)` / `ioredis.setex`. -/
def cacheSetEx (c : Cache) (key : String) (ttl : ℕ) (v : CacheVal) : Cache :=
  jsSet c key (v, ttl)

/-- Model of `CacheService.setTokens` of the node-redis variant (WebSocketService.ts
lines 122–131): one `setEx` of the full list under `tokens:all`. -/
def setTokensRedis (c : Cache) (tokens : List TokenData) (ttl : ℕ) : Cache :=
  cacheSetEx c "tokens:all" ttl (CacheVal.tokenList tokens)

/-- Model of `CacheService.setTokens` of the ioredis variant (WebSocketService.ts
lines 236–252): `setex` of the full list under `tokens:all`, then one
`setex` per token of `tokens.slice(0, 100)` under `token:<address>`. -/
def setTokensIoredis (c : Cache) (tokens : List TokenData) (ttl : ℕ) : Cache :=
  (tokens.take 100).foldl
    (fun acc token => cacheSetEx acc ("token:" ++ token.token_address) ttl
      (CacheVal.singleToken token))
    (cacheSetEx c "tokens:all" ttl (CacheVal.tokenList tokens))

/-- Model of `CacheService.getTokens`: read `tokens:all`, `null` on a miss (and
on a value of the wrong shape, which real JSON parsing cannot
distinguish here). -/
def cacheGetTokens (c : Cache) : Option (List TokenData) :=
  match jsGet c "tokens:all" with
  | some (CacheVal.tokenList l, _) => some l
  | _ => none

/-- Model of `CacheService.getToken(address)`: lowercase the address, read the
per-token key. -/
def cacheGetToken (c : Cache) (address : String) : Option TokenData :=
  match jsGet c ("token:" ++ jsToLower address) with
  | some (CacheVal.singleToken t, _) => some t
  | _ => none

/-- One WebSocket alert emission, identified by the broadcast call the
change detector makes (`WebSocketService.broadcast*`). Each constructor
carries exactly the arguments of the corresponding call. -/
inductive Alert where
  | price_alert (token : TokenData) (oldPrice : ℚ)
  | volume_alert (token : TokenData)
  | market_cap_alert (token : TokenData) (oldMarketCap : ℚ)
  | liquidity_alert (token : TokenData) (oldLiquidity : ℚ)
deriving DecidableEq

/-- Model of `new Map(cachedTokens.map(token => [token.token_address, token]))`:
later duplicates overwrite earlier ones. -/
def buildCachedMap (cached : List TokenData) : List (String × TokenData) :=
  cached.foldl (fun m t => jsSet m t.token_address t) []

/-- The per-token body of `detectSignificantChanges` (app.ts variant of
WebSocketService.ts lines 436–479): the four threshold checks against
the counterpart from the cached snapshot, in source order. -/
def detectChangesForToken (cachedToken freshToken : TokenData) : List Alert :=
  (if cachedToken.price > 0 ∧ freshToken.price > 0 then
    (if |freshToken.price - cachedToken.price| / cachedToken.price > 5/100 then
      [Alert.price_alert freshToken cachedToken.price]
    else [])
  else []) ++
  (if cachedToken.volume24h > 0 ∧ freshToken.volume24h > cachedToken.volume24h * 2 then
    [Alert.volume_alert freshToken]
  else []) ++
  (if cachedToken.marketCap > 0 ∧ freshToken.marketCap > 0 then
    (if |freshToken.marketCap - cachedToken.marketCap| / cachedToken.marketCap > 10/100 then
      [Alert.market_cap_alert freshToken cachedToken.marketCap]
    else [])
  else []) ++
  (if cachedToken.liquidity > 0 ∧ freshToken.liquidity > 0 then
    (if |freshToken.liquidity - cachedToken.liquidity| / cachedToken.liquidity > 20/100 then
      [Alert.liquidity_alert freshToken cachedToken.liquidity]
    else [])
  else [])

/-- Model of `detectSignificantChanges(freshTokens)` given the value the cache
read returned: `null` means "return with no events"; otherwise every
fresh token with a counterpart in the cached map is checked. -/
def detectSignificantChanges (cachedTokens : Option (List TokenData))
    (freshTokens : List TokenData) : List Alert :=
  match cachedTokens with
  | none => []
  | some cached =>
      let cachedMap := buildCachedMap cached
      freshTokens.flatMap (fun freshToken =>
        match jsGet cachedMap freshToken.token_address with
        | some cachedToken => detectChangesForToken cachedToken freshToken
        | none => [])

/-- One scheduler tick, `updateTokenData` (app.ts lines 412–434 of the
WebSocketService.ts bundle): aggregate, write the fresh snapshot to the
cache, then run change detection — whose cache read happens after that
write. Returns the new cache state and the alerts emitted (the
unconditional `batch_update` broadcast is not an alert and is omitted). -/
def updateTokenData (now : String) (ttl : ℕ) (c : Cache)
    (dexscreenerTokens geckoterminalTokens : Option (List TokenData)) : Cache × List Alert :=
  let freshTokens := getAllTokens now dexscreenerTokens geckoterminalTokens
  let cacheAfterWrite := setTokensIoredis c freshTokens ttl
  (cacheAfterWrite, detectSignificantChanges (cacheGetTokens cacheAfterWrite) freshTokens)

/-- Model of `PaginatedResponse` of `src/types/index.ts` (cursor kept numeric:
the source serializes the numeric offset with `toString` and parses it
back with `parseInt`). -/
structure PaginatedResponse where
  tokens : List TokenData
  next_cursor : Option ℕ
  has_more : Bool
  total_count : ℕ
  timestamp : ℕ
deriving DecidableEq

/-- Model of `TokenController.paginateTokens` (current variant): slice
`[cursor, cursor + limit)`, `limit` defaulting to 20 when absent or
falsy, `cursor` defaulting to 0. -/
def paginateTokens (nowMs : ℕ) (tokens : List TokenData)
    (limitOpt cursorOpt : Option ℕ) : PaginatedResponse :=
  let limit := match limitOpt with
    | some l => if l = 0 then 20 else l
    | none => 20
  let cursor := cursorOpt.getD 0
  let paginatedTokens := (tokens.drop cursor).take limit
  { tokens := paginatedTokens
    next_cursor := if cursor + limit < tokens.length then some (cursor + limit) else none
    has_more := decide (cursor + limit < tokens.length)
    total_count := tokens.length
    timestamp := nowMs }

/-- Client walk used to state the pagination round trip: request the
page at `cursor`, then follow `next_cursor` while `has_more` holds.
`fuel` dominates the number of pages; `tokens.length + 1` suffices. -/
def walkPages (nowMs : ℕ) (tokens : List TokenData) (k : ℕ) :
    ℕ → ℕ → List TokenData
  | 0, _ => []
  | fuel + 1, cursor =>
      let page := paginateTokens nowMs tokens (some k) (some cursor)
      page.tokens ++
        (match page.next_cursor with
         | some c => walkPages nowMs tokens k fuel c
         | none => [])

/-- Concatenation of all pages of size `k`, starting from cursor 0. -/
def collectAllPages (nowMs : ℕ) (tokens : List TokenData) (k : ℕ) : List TokenData :=
  walkPages nowMs tokens k (tokens.length + 1) 0

/-- Per-connection record stored in `connectedClients`
(`WebSocketService.setupSocketHandlers`). `subscribedTokens` is a JS
`Set`, modelled as a duplicate-free list in insertion order. -/
structure ClientInfo where
  id : String
  connectedAt : ℕ
  subscribedTokens : List String
deriving DecidableEq

/-- Model of `Set.prototype.add`. -/
def setAdd (l : List String) (s : String) : List String :=
  if s ∈ l then l else l ++ [s]

/-- Model of `Set.prototype.delete`. -/
def setDelete (l : List String) (s : String) : List String :=
  l.filter (fun x => x ≠ s)

/-- The `subscribe_tokens` handler: look the connection up in
`connectedClients`; if it is present and the message has a `tokens`
field, add each lowercased address to its set; otherwise do nothing. -/
def onSubscribeTokens (m : List (String × ClientInfo)) (socketId : String)
    (tokens : Option (List String)) : List (String × ClientInfo) :=
  match jsGet m socketId, tokens with
  | some client, some ts =>
      jsSet m socketId
        { client with
          subscribedTokens := ts.foldl (fun acc token => setAdd acc (jsToLower token))
            client.subscribedTokens }
  | _, _ => m

/-- The `unsubscribe_tokens` handler: symmetric to subscription, with
`Set.prototype.delete`. -/
def onUnsubscribeTokens (m : List (String × ClientInfo)) (socketId : String)
    (tokens : Option (List String)) : List (String × ClientInfo) :=
  match jsGet m socketId, tokens with
  | some client, some ts =>
      jsSet m socketId
        { client with
          subscribedTokens := ts.foldl (fun acc token => setDelete acc (jsToLower token))
            client.subscribedTokens }
  | _, _ => m

/-- A token record with every field at its mapping default; concrete
test records below override the fields they care about. -/
def baseTok : TokenData :=
  { token_address := ""
    token_name := "Unknown"
    token_ticker := "UNKNOWN"
    price := 0
    priceChange1h := 0
    priceChange6h := 0
    priceChange24h := 0
    priceChangePercentage24h := 0
    marketCap := 0
    marketCapChange24h := 0
    marketCapChangePercentage24h := 0
    volume24h := 0
    circulatingSupply := 0
    totalSupply := 0
    liquidity := 0
    high_24h := 0
    low_24h := 0
    transaction_count := 0
    ath := 0
    athChangePercentage := 0
    athDate := ""
    atl := 0
    atlChangePercentage := 0
    atlDate := ""
    roi := none
    dex := "Unknown"
    dexUrl := ""
    image := ""
    rank := none
    source := []
    lastUpdated := ""
    is_merged := false }

/-- Scenario S3, DEX-side record. -/
def s3dex : TokenData :=
  { baseTok with
    token_address := "0x1"
    price := 1
    liquidity := 200
    volume24h := 500
    source := ["dexscreener"] }

/-- Scenario S3, market-data record (price 1.1, supply 1e6). -/
def s3market : TokenData :=
  { baseTok with
    token_address := "0x1"
    price := mkRat 11 10
    liquidity := 0
    volume24h := 600
    priceChangePercentage24h := 12
    circulatingSupply := 1000000
    source := ["coingecko"] }

/-- A minimal valid CoinGecko DTO used to exercise the missing cap. -/
def cgValidSample : CgToken :=
  { id := "a"
    name := none
    symbol := none
    current_price := some 1
    price_change_24h := none
    price_change_percentage_24h := none
    market_cap := none
    market_cap_change_24h := none
    market_cap_change_percentage_24h := none
    total_volume := none
    circulating_supply := none
    total_supply := none
    high_24h := none
    low_24h := none
    ath := none
    ath_change_percentage := none
    ath_date := none
    atl := none
    atl_change_percentage := none
    atl_date := none
    roi := none
    image := none
    market_cap_rank := none
    last_updated := none }

/-- A valid token sitting in the pre-tick snapshot. -/
def prevTok : TokenData :=
  { baseTok with
    token_address := "aaa"
    price := 1
    volume24h := 7
    source := ["dexscreener"] }

/-- A dexscreener-sourced record named Alpha (commutativity probe). -/
def alphaTok : TokenData :=
  { baseTok with
    token_address := "0x1"
    token_name := "Alpha"
    token_ticker := "AT"
    price := 1
    source := ["dexscreener"] }

/-- A coingecko-sourced record named Beta (commutativity probe). -/
def betaTok : TokenData :=
  { baseTok with
    token_address := "0x1"
    token_name := "Beta"
    token_ticker := "BT"
    price := 2
    source := ["coingecko"] }

/-- A DEX-side record with zero liquidity but a known supply
(fallback probe). -/
def zeroLiqDex : TokenData :=
  { baseTok with
    token_address := "0x1"
    price := 1
    liquidity := 0
    circulatingSupply := 500
    source := ["dexscreener"] }

/-- A market-side record with positive liquidity but zero supply
(fallback probe). -/
def posLiqCg : TokenData :=
  { baseTok with
    token_address := "0x1"
    price := 1
    liquidity := 300
    circulatingSupply := 0
    source := ["coingecko"] }

/-- Two distinct-address valid tokens for the cache-write witness. -/
def cacheTokA : TokenData :=
  { baseTok with
    token_address := "a1"
    price := 1
    volume24h := 5
    source := ["dexscreener"] }

/-- Second cache-write witness token. -/
def cacheTokB : TokenData :=
  { baseTok with
    token_address := "a2"
    price := 2
    volume24h := 3
    source := ["coingecko"] }

/-- A connected client used by the subscription-handler witness. -/
def clientOne : ClientInfo :=
  { id := "s1", connectedAt := 0, subscribedTokens := ["aaa"] }

/-- Invariant of the merge map built by `mergeTokens`: keys are
pairwise distinct and non-empty, and every stored record's lowercased
address equals its key. -/
def MapWf (m : List (String × TokenData)) : Prop :=
  (jsKeys m).Nodup ∧ ∀ p ∈ m, p.1 ≠ "" ∧ jsToLower p.2.token_address = p.1

theorem jsGet_nil {α : Type} (k : String) : jsGet ([] : List (String × α)) k = none := rfl

theorem jsGet_cons {α : Type} (p : String × α) (rest : List (String × α)) (k : String) :
    jsGet (p :: rest) k = if p.1 = k then some p.2 else jsGet rest k := rfl

theorem jsSet_nil {α : Type} (k : String) (v : α) : jsSet [] k v = [(k, v)] := rfl

theorem jsSet_cons {α : Type} (p : String × α) (rest : List (String × α)) (k : String) (v : α) :
    jsSet (p :: rest) k v = if p.1 = k then (k, v) :: rest else p :: jsSet rest k v := rfl

theorem jsKeys_nil {α : Type} : jsKeys ([] : List (String × α)) = [] := rfl

theorem jsKeys_cons {α : Type} (p : String × α) (rest : List (String × α)) :
    jsKeys (p :: rest) = p.1 :: jsKeys rest := rfl

theorem jsGet_jsSet_self {α : Type} (m : List (String × α)) (k : String) (v : α) :
    jsGet (jsSet m k v) k = some v := by
  induction m with
  | nil => simp [jsSet_nil, jsGet_cons, jsGet_nil]
  | cons p rest ih =>
      by_cases h : p.1 = k
      · rw [jsSet_cons, if_pos h, jsGet_cons, if_pos rfl]
      · rw [jsSet_cons, if_neg h, jsGet_cons, if_neg h]
        exact ih

theorem jsGet_jsSet_ne {α : Type} (m : List (String × α)) (k k2 : String) (v : α)
    (h : k2 ≠ k) : jsGet (jsSet m k v) k2 = jsGet m k2 := by
  have hk : ¬ (k = k2) := fun hh => h hh.symm
  induction m with
  | nil => rw [jsSet_nil, jsGet_cons, if_neg hk, jsGet_nil]
  | cons p rest ih =>
      by_cases hp : p.1 = k
      · have hp2 : ¬ (p.1 = k2) := by rw [hp]; exact hk
        rw [jsSet_cons, if_pos hp, jsGet_cons, if_neg hk, jsGet_cons, if_neg hp2]
      · rw [jsSet_cons, if_neg hp, jsGet_cons, jsGet_cons, ih]

theorem jsGet_eq_none_of_not_mem {α : Type} (m : List (String × α)) (k : String) :
    k ∉ jsKeys m → jsGet m k = none := by
  induction m with
  | nil => intro _; rfl
  | cons p rest ih =>
      intro h
      rw [jsKeys_cons, List.mem_cons] at h
      push_neg at h
      rw [jsGet_cons, if_neg (fun hh => h.1 hh.symm)]
      exact ih h.2

theorem mem_keys_of_jsGet_eq_some {α : Type} (m : List (String × α)) (k : String) (v : α) :
    jsGet m k = some v → k ∈ jsKeys m := by
  induction m with
  | nil => intro h; exact absurd h (by rw [jsGet_nil]; exact Option.noConfusion)
  | cons p rest ih =>
      intro h
      rw [jsGet_cons] at h
      by_cases hp : p.1 = k
      · rw [jsKeys_cons, hp]
        exact List.mem_cons_self k _
      · rw [if_neg hp] at h
        rw [jsKeys_cons]
        exact List.mem_cons_of_mem _ (ih h)

theorem jsGet_mem {α : Type} (m : List (String × α)) (k : String) (v : α) :
    jsGet m k = some v → (k, v) ∈ m := by
  induction m with
  | nil => intro h; exact absurd h (by rw [jsGet_nil]; exact Option.noConfusion)
  | cons p rest ih =>
      intro h
      rw [jsGet_cons] at h
      by_cases hp : p.1 = k
      · rw [if_pos hp] at h
        injection h with h2
        have hpv : (k, v) = p := by
          cases p with
          | mk a b =>
              simp only [Prod.mk.injEq]
              exact ⟨hp.symm, h2.symm⟩
        rw [List.mem_cons]
        exact Or.inl hpv
      · rw [if_neg hp] at h
        exact List.mem_cons_of_mem _ (ih h)

theorem jsKeys_jsSet_of_mem {α : Type} (m : List (String × α)) (k : String) (v : α) :
    k ∈ jsKeys m → jsKeys (jsSet m k v) = jsKeys m := by
  induction m with
  | nil => intro h; exact absurd h (by rw [jsKeys_nil]; exact List.not_mem_nil k)
  | cons p rest ih =>
      intro h
      by_cases hp : p.1 = k
      · rw [jsSet_cons, if_pos hp, jsKeys_cons, jsKeys_cons, hp]
      · rw [jsKeys_cons, List.mem_cons] at h
        rcases h with h | h
        · exact absurd h.symm hp
        · rw [jsSet_cons, if_neg hp, jsKeys_cons, jsKeys_cons, ih h]

theorem jsKeys_jsSet_of_not_mem {α : Type} (m : List (String × α)) (k : String) (v : α) :
    k ∉ jsKeys m → jsKeys (jsSet m k v) = jsKeys m ++ [k] := by
  induction m with
  | nil => intro _; rfl
  | cons p rest ih =>
      intro h
      rw [jsKeys_cons, List.mem_cons] at h
      push_neg at h
      rw [jsSet_cons, if_neg (fun hh => h.1 hh.symm), jsKeys_cons, jsKeys_cons, ih h.2,
        List.cons_append]

theorem mem_jsSet {α : Type} (m : List (String × α)) (k : String) (v : α)
    (p : String × α) : p ∈ jsSet m k v → p = (k, v) ∨ p ∈ m := by
  induction m with
  | nil =>
      intro hp
      rw [jsSet_nil, List.mem_singleton] at hp
      exact Or.inl hp
  | cons q rest ih =>
      intro hp
      by_cases hq : q.1 = k
      · rw [jsSet_cons, if_pos hq, List.mem_cons] at hp
        rcases hp with hp | hp
        · exact Or.inl hp
        · exact Or.inr (List.mem_cons_of_mem _ hp)
      · rw [jsSet_cons, if_neg hq, List.mem_cons] at hp
        rcases hp with hp | hp
        · exact Or.inr (by rw [List.mem_cons]; exact Or.inl hp)
        · rcases ih hp with h | h
          · exact Or.inl h
          · exact Or.inr (List.mem_cons_of_mem _ h)

theorem jsToLower_eq_empty_iff (s : String) : jsToLower s = "" ↔ s = "" := by
  cases s with
  | mk data =>
      cases data with
      | nil => simp [jsToLower]
      | cons c cs =>
          constructor
          · intro h
            have h2 := congrArg String.data h
            simp [jsToLower] at h2
          · intro h
            have h2 := congrArg String.data h
            simp at h2

theorem mem_jsSetDedup_aux (l : List String) (acc : List String) (s : String) :
    s ∈ l.foldl (fun acc t => if t ∈ acc then acc else acc ++ [t]) acc ↔
      s ∈ acc ∨ s ∈ l := by
  induction l generalizing acc with
  | nil => simp
  | cons x xs ih =>
      simp only [List.foldl_cons, List.mem_cons]
      by_cases hx : x ∈ acc
      · rw [if_pos hx, ih]
        constructor
        · rintro (h | h)
          · exact Or.inl h
          · exact Or.inr (Or.inr h)
        · rintro (h | h | h)
          · exact Or.inl h
          · exact Or.inl (h ▸ hx)
          · exact Or.inr h
      · rw [if_neg hx, ih]
        simp only [List.mem_append, List.mem_singleton]
        tauto

theorem mem_jsSetDedup (l : List String) (s : String) :
    s ∈ jsSetDedup l ↔ s ∈ l := by
  unfold jsSetDedup
  rw [mem_jsSetDedup_aux]
  simp

theorem insertByVolumeDesc_perm (t : TokenData) (l : List TokenData) :
    (insertByVolumeDesc t l).Perm (t :: l) := by
  induction l with
  | nil => exact List.Perm.refl _
  | cons x xs ih =>
      simp only [insertByVolumeDesc]
      by_cases h : x.volume24h ≤ t.volume24h
      · rw [if_pos h]
      · rw [if_neg h]
        exact (ih.cons x).trans (List.Perm.swap t x xs)

theorem sortByVolumeDesc_perm (l : List TokenData) :
    (sortByVolumeDesc l).Perm l := by
  induction l with
  | nil => exact List.Perm.refl _
  | cons x xs ih =>
      exact (insertByVolumeDesc_perm x (sortByVolumeDesc xs)).trans (ih.cons x)

theorem mergeTokenData_token_address_cases (now : String) (a b : TokenData) :
    (mergeTokenData now a b).token_address = a.token_address ∨
      (mergeTokenData now a b).token_address = b.token_address := by
  have h : (mergeTokenData now a b).token_address =
      orS (if a.source.contains "dexscreener" then a
          else if b.source.contains "coingecko" then b else a).token_address
        (if b.source.contains "coingecko" then b
          else if a.source.contains "dexscreener" then a else b).token_address := rfl
  rw [h]
  unfold orS
  split_ifs <;> tauto

theorem mergeTokenData_lower_addr (now : String) (a b : TokenData) (key : String)
    (ha : jsToLower a.token_address = key) (hb : jsToLower b.token_address = key) :
    jsToLower (mergeTokenData now a b).token_address = key := by
  rcases mergeTokenData_token_address_cases now a b with h | h <;> rw [h] <;> assumption

theorem jsGet_isSome_of_mem_keys {α : Type} (m : List (String × α)) (k : String) :
    k ∈ jsKeys m → ∃ v, jsGet m k = some v := by
  induction m with
  | nil => intro h; exact absurd h (List.not_mem_nil k)
  | cons p rest ih =>
      intro h
      by_cases hp : p.1 = k
      · exact ⟨p.2, by rw [jsGet_cons, if_pos hp]⟩
      · rw [jsKeys_cons, List.mem_cons] at h
        rcases h with h | h
        · exact absurd h.symm hp
        · obtain ⟨v, hv⟩ := ih h
          exact ⟨v, by rw [jsGet_cons, if_neg hp]; exact hv⟩

theorem insertToken_MapWf (now : String) (m : List (String × TokenData)) (token : TokenData)
    (hwf : MapWf m) : MapWf (insertToken now m token) := by
  obtain ⟨hnd, hall⟩ := hwf
  unfold insertToken
  by_cases hkey : jsToLower token.token_address = ""
  · rw [if_pos hkey]
    exact ⟨hnd, hall⟩
  · rw [if_neg hkey]
    rcases hget : jsGet m (jsToLower token.token_address) with _ | existing
    · have hnotmem : jsToLower token.token_address ∉ jsKeys m := by
        intro hmem
        obtain ⟨v, hv⟩ := jsGet_isSome_of_mem_keys m _ hmem
        rw [hget] at hv
        exact Option.noConfusion hv
      constructor
      · rw [jsKeys_jsSet_of_not_mem m _ _ hnotmem]
        rw [List.nodup_append]
        exact ⟨hnd, List.nodup_singleton _, by
          rw [List.disjoint_singleton]
          exact hnotmem⟩
      · intro p hp
        rcases mem_jsSet m _ _ p hp with h | h
        · rw [h]
          exact ⟨hkey, rfl⟩
        · exact hall p h
    · have hmem : jsToLower token.token_address ∈ jsKeys m :=
        mem_keys_of_jsGet_eq_some m _ _ hget
      constructor
      · rw [jsKeys_jsSet_of_mem m _ _ hmem]
        exact hnd
      · intro p hp
        rcases mem_jsSet m _ _ p hp with h | h
        · rw [h]
          refine ⟨hkey, ?_⟩
          have hex := hall _ (jsGet_mem m _ _ hget)
          exact mergeTokenData_lower_addr now existing token _ hex.2 rfl
        · exact hall p h

theorem foldl_insertToken_MapWf (now : String) (l : List TokenData)
    (m : List (String × TokenData)) (hwf : MapWf m) :
    MapWf (l.foldl (insertToken now) m) := by
  induction l generalizing m with
  | nil => exact hwf
  | cons x xs ih =>
      rw [List.foldl_cons]
      exact ih _ (insertToken_MapWf now m x hwf)

theorem values_lower_eq_jsKeys (m : List (String × TokenData))
    (h : ∀ p ∈ m, jsToLower p.2.token_address = p.1) :
    (m.map (fun p => p.2)).map (fun t => jsToLower t.token_address) = jsKeys m := by
  induction m with
  | nil => rfl
  | cons p rest ih =>
      rw [List.map_cons, List.map_cons, jsKeys_cons,
        h p (List.mem_cons_self p rest),
        ih (fun q hq => h q (List.mem_cons_of_mem p hq))]

theorem mergeTokens_lower_addr_nodup (now : String) (tokensArrays : List (List TokenData)) :
    ((mergeTokens now tokensArrays).map (fun t => jsToLower t.token_address)).Nodup := by
  unfold mergeTokens
  have hwf : MapWf (tokensArrays.flatten.foldl (insertToken now) []) :=
    foldl_insertToken_MapWf now _ [] ⟨List.nodup_nil, by intro p hp; exact absurd hp (List.not_mem_nil p)⟩
  set m := tokensArrays.flatten.foldl (insertToken now) [] with hm
  have hvals : ((m.map (fun p => p.2)).map (fun t => jsToLower t.token_address)).Nodup := by
    rw [values_lower_eq_jsKeys m (fun p hp => (hwf.2 p hp).2)]
    exact hwf.1
  have hperm : ((sortByVolumeDesc (m.map (fun p => p.2))).map
      (fun t => jsToLower t.token_address)).Nodup := by
    have hp := (sortByVolumeDesc_perm (m.map (fun p => p.2))).map
      (fun t => jsToLower t.token_address)
    exact hp.nodup_iff.mpr hvals
  have hsub : List.Sublist
      (((sortByVolumeDesc (m.map (fun p => p.2))).take maxTokens).map
        (fun t => jsToLower t.token_address))
      ((sortByVolumeDesc (m.map (fun p => p.2))).map
        (fun t => jsToLower t.token_address)) :=
    (List.take_sublist maxTokens _).map _
  exact hperm.sublist hsub

theorem mergeTokens_addr_nodup (now : String) (tokensArrays : List (List TokenData)) :
    ((mergeTokens now tokensArrays).map (fun t => t.token_address)).Nodup := by
  have h := mergeTokens_lower_addr_nodup now tokensArrays
  have h2 : (((mergeTokens now tokensArrays).map (fun t => t.token_address)).map
      jsToLower).Nodup := by
    rw [List.map_map]
    exact h
  exact List.Nodup.of_map jsToLower h2

theorem detectChangesForToken_self (t : TokenData) :
    detectChangesForToken t t = [] := by
  unfold detectChangesForToken
  have h1 : ¬ (|t.price - t.price| / t.price > 5/100) := by
    rw [sub_self, abs_zero, zero_div]
    norm_num
  have h2 : ¬ (t.volume24h > 0 ∧ t.volume24h > t.volume24h * 2) := by
    rintro ⟨ha, hb⟩
    linarith
  have h3 : ¬ (|t.marketCap - t.marketCap| / t.marketCap > 10/100) := by
    rw [sub_self, abs_zero, zero_div]
    norm_num
  have h4 : ¬ (|t.liquidity - t.liquidity| / t.liquidity > 20/100) := by
    rw [sub_self, abs_zero, zero_div]
    norm_num
  simp only [if_neg h1, if_neg h2, if_neg h3, if_neg h4, ite_self]
  rfl

theorem jsGet_foldl_jsSet_not_written {α β : Type} (l : List β) (f : β → String) (g : β → α)
    (k : String) (h : ∀ x ∈ l, f x ≠ k) :
    ∀ m : List (String × α),
      jsGet (l.foldl (fun acc y => jsSet acc (f y) (g y)) m) k = jsGet m k := by
  induction l with
  | nil => intro m; rfl
  | cons y ys ih =>
      intro m
      rw [List.foldl_cons,
        ih (fun x hx => h x (List.mem_cons_of_mem y hx)),
        jsGet_jsSet_ne m (f y) k (g y) (fun hh => h y (List.mem_cons_self y ys) hh.symm)]

theorem jsGet_foldl_jsSet_self {α β : Type} (l : List β) (f : β → String) (g : β → α)
    (hnd : (l.map f).Nodup) (x : β) (hx : x ∈ l) :
    ∀ m : List (String × α),
      jsGet (l.foldl (fun acc y => jsSet acc (f y) (g y)) m) (f x) = some (g x) := by
  induction l with
  | nil => exact absurd hx (List.not_mem_nil x)
  | cons y ys ih =>
      intro m
      rw [List.map_cons, List.nodup_cons] at hnd
      rcases List.mem_cons.mp hx with hxy | hxys
      · subst hxy
        have hnw : ∀ z ∈ ys, f z ≠ f x := by
          intro z hz hfz
          exact hnd.1 (hfz ▸ List.mem_map_of_mem f hz)
        rw [List.foldl_cons, jsGet_foldl_jsSet_not_written ys f g (f x) hnw,
          jsGet_jsSet_self]
      · rw [List.foldl_cons]
        exact ih hnd.2 hxys _

theorem jsGet_foldl_jsSet_written {α β : Type} (l : List β) (f : β → String) (g : β → α)
    (k : String) :
    ∀ m : List (String × α), (∃ x ∈ l, f x = k) →
      ∃ x ∈ l, f x = k ∧
        jsGet (l.foldl (fun acc y => jsSet acc (f y) (g y)) m) k = some (g x) := by
  induction l with
  | nil =>
      rintro m ⟨x, hx, _⟩
      exact absurd hx (List.not_mem_nil x)
  | cons y ys ih =>
      rintro m ⟨x, hx, hfx⟩
      by_cases hys : ∃ z ∈ ys, f z = k
      · obtain ⟨z, hz, hfz, hget⟩ := ih _ hys
        exact ⟨z, List.mem_cons_of_mem _ hz, hfz, hget⟩
      · push_neg at hys
        have hfy : f y = k := by
          rcases List.mem_cons.mp hx with h | h
          · rw [← h]; exact hfx
          · exact absurd hfx (hys x h)
        refine ⟨y, List.mem_cons_self y ys, hfy, ?_⟩
        rw [List.foldl_cons, jsGet_foldl_jsSet_not_written ys f g k hys, ← hfy,
          jsGet_jsSet_self]

theorem detectSignificantChanges_self (fresh : List TokenData)
    (hnd : (fresh.map (fun t => t.token_address)).Nodup) :
    detectSignificantChanges (some fresh) fresh = [] := by
  unfold detectSignificantChanges buildCachedMap
  rw [List.flatMap_eq_nil_iff]
  intro t ht
  have hget : jsGet (fresh.foldl (fun m t => jsSet m t.token_address t) []) t.token_address =
      some t :=
    jsGet_foldl_jsSet_self fresh (fun t => t.token_address) (fun t => t) hnd t ht []
  rw [hget]
  exact detectChangesForToken_self t

theorem jsGet_setTokensIoredis_tokensAll (c : Cache) (tokens : List TokenData) (ttl : ℕ) :
    jsGet (setTokensIoredis c tokens ttl) "tokens:all" =
        some (CacheVal.tokenList tokens, ttl) ∨
      ∃ x, jsGet (setTokensIoredis c tokens ttl) "tokens:all" =
        some (CacheVal.singleToken x, ttl) := by
  by_cases hcol : ∀ t ∈ tokens.take 100, ("token:" ++ t.token_address) ≠ "tokens:all"
  · left
    exact (jsGet_foldl_jsSet_not_written (tokens.take 100)
        (fun t => "token:" ++ t.token_address) (fun t => (CacheVal.singleToken t, ttl))
        "tokens:all" hcol
        (jsSet c "tokens:all" (CacheVal.tokenList tokens, ttl))).trans
      (jsGet_jsSet_self c "tokens:all" (CacheVal.tokenList tokens, ttl))
  · push_neg at hcol
    obtain ⟨x, hx, hfx, hget⟩ := jsGet_foldl_jsSet_written (tokens.take 100)
      (fun t => "token:" ++ t.token_address) (fun t => (CacheVal.singleToken t, ttl))
      "tokens:all" (jsSet c "tokens:all" (CacheVal.tokenList tokens, ttl)) hcol
    exact Or.inr ⟨x, hget⟩

theorem cacheGetTokens_setTokensIoredis (c : Cache) (tokens : List TokenData) (ttl : ℕ) :
    cacheGetTokens (setTokensIoredis c tokens ttl) = some tokens ∨
      cacheGetTokens (setTokensIoredis c tokens ttl) = none := by
  rcases jsGet_setTokensIoredis_tokensAll c tokens ttl with h | ⟨x, h⟩
  · left
    unfold cacheGetTokens
    rw [h]
  · right
    unfold cacheGetTokens
    rw [h]

theorem getAllTokens_addr_nodup (now : String)
    (dexscreenerTokens geckoterminalTokens : Option (List TokenData)) :
    ((getAllTokens now dexscreenerTokens geckoterminalTokens).map
      (fun t => t.token_address)).Nodup :=
  mergeTokens_addr_nodup now _

theorem getAllTokens_allfail (now : String) : getAllTokens now none none = [] := rfl

theorem walkPages_eq_drop (nowMs : ℕ) (tokens : List TokenData) (k : ℕ) (hk : 1 ≤ k) :
    ∀ fuel cursor, tokens.length - cursor < fuel →
      walkPages nowMs tokens k fuel cursor = tokens.drop cursor := by
  intro fuel
  induction fuel with
  | zero => intro cursor h; exact absurd h (Nat.not_lt_zero _)
  | succ fuel ih =>
      intro cursor h
      have hk0 : ¬ (k = 0) := by omega
      by_cases hc : cursor + k < tokens.length
      · simp only [walkPages, paginateTokens, if_neg hk0, if_pos hc, Option.getD_some]
        rw [ih (cursor + k) (by omega), ← List.drop_drop k cursor tokens]
        exact List.take_append_drop k (tokens.drop cursor)
      · simp only [walkPages, paginateTokens, if_neg hk0, if_neg hc, Option.getD_some]
        rw [List.append_nil]
        apply List.take_of_length_le
        rw [List.length_drop]
        omega

theorem string_append_left_cancel (s a b : String) (h : s ++ a = s ++ b) : a = b := by
  cases s with
  | mk sd =>
      cases a with
      | mk ad =>
          cases b with
          | mk bd =>
              have h2 : sd ++ ad = sd ++ bd := congrArg String.data h
              exact congrArg String.mk (List.append_cancel_left h2)

/-- C1: the scheduler tick can never emit an alert. `updateTokenData`
awaits `setTokens(freshTokens)` before `detectSignificantChanges`, and
the detector reads its "previous" snapshot from the same cache — so it
always compares the fresh snapshot with itself (or aborts on a miss),
and no threshold condition can hold. This contradicts the claim, under
which a tick with a genuinely changed price must emit `price_alert`. -/
theorem tick_emits_no_alerts (now : String) (ttl : ℕ) (c : Cache)
    (dexscreenerTokens geckoterminalTokens : Option (List TokenData)) :
    (updateTokenData now ttl c dexscreenerTokens geckoterminalTokens).2 = [] := by
  show detectSignificantChanges
      (cacheGetTokens (setTokensIoredis c
        (getAllTokens now dexscreenerTokens geckoterminalTokens) ttl))
      (getAllTokens now dexscreenerTokens geckoterminalTokens) = []
  rcases cacheGetTokens_setTokensIoredis c
      (getAllTokens now dexscreenerTokens geckoterminalTokens) ttl with h | h
  · rw [h]
    exact detectSignificantChanges_self _
      (getAllTokens_addr_nodup now dexscreenerTokens geckoterminalTokens)
  · rw [h]
    rfl

/-- C2 (amended): a tick in which every upstream fetch fails is not
aborted — `Promise.allSettled` never rejects, `getAllTokens` returns
the empty merged list, and the tick overwrites `tokens:all` with the
empty snapshot. -/
theorem allUpstreamFailure_writes_empty_snapshot (now : String) (ttl : ℕ) (c : Cache) :
    cacheGetTokens ((updateTokenData now ttl c none none).1) = some [] := by
  show cacheGetTokens (setTokensIoredis c (getAllTokens now none none) ttl) = some []
  rw [getAllTokens_allfail]
  have h : jsGet (setTokensIoredis c [] ttl) "tokens:all" =
      some (CacheVal.tokenList [], ttl) := by
    show jsGet (jsSet c "tokens:all" (CacheVal.tokenList [], ttl)) "tokens:all" = _
    exact jsGet_jsSet_self c "tokens:all" (CacheVal.tokenList [], ttl)
  unfold cacheGetTokens
  rw [h]

/-- C2 (counterexample): starting from a cache whose `tokens:all` holds
a one-token snapshot, a tick with both upstreams failed replaces it by
the empty snapshot instead of leaving it unchanged. -/
theorem allUpstreamFailure_replaces_snapshot_counterexample :
    cacheGetTokens [("tokens:all", (CacheVal.tokenList [prevTok], 30))] = some [prevTok] ∧
      cacheGetTokens
        ((updateTokenData "T" 30 [("tokens:all", (CacheVal.tokenList [prevTok], 30))]
          none none).1) = some [] ∧
      (some ([] : List TokenData) ≠ some [prevTok]) := by
  decide

/-- C3: merging the single DEX record of scenario S3 with the single
market-data record of scenario S3 yields exactly one record with the
claimed precedence fields, the union of sources, and `is_merged`. -/
theorem s3_merge_precedence_scenario :
    (mergeTokens "T" [[s3dex], [s3market]]).map (fun m => m.price) = [1] ∧
      (mergeTokens "T" [[s3dex], [s3market]]).map (fun m => m.liquidity) = [200] ∧
      (mergeTokens "T" [[s3dex], [s3market]]).map (fun m => m.volume24h) = [500] ∧
      (mergeTokens "T" [[s3dex], [s3market]]).map
        (fun m => m.priceChangePercentage24h) = [12] ∧
      (mergeTokens "T" [[s3dex], [s3market]]).map
        (fun m => m.circulatingSupply) = [1000000] ∧
      (mergeTokens "T" [[s3dex], [s3market]]).map
        (fun m => m.source) = [["dexscreener", "coingecko"]] ∧
      (mergeTokens "T" [[s3dex], [s3market]]).map (fun m => m.is_merged) = [true] := by
  decide

/-- C6 (amended): the DexScreener adapter caps its result at
`batchSize`; the CoinGecko adapter applies no cap and returns every
valid mapped row. -/
theorem adapter_cap_behaviour (now : String) (pairs : List DsPair) (cgs : List CgToken) :
    (fetchFromDexScreener now pairs).length ≤ batchSize ∧
      (fetchFromGeckoTerminal now cgs).length =
        ((cgs.map (mapCoinGeckoToken now)).filter validToken).length := by
  constructor
  · calc (fetchFromDexScreener now pairs).length
        ≤ ((pairs.take batchSize).map (mapDexScreenerToken now)).length :=
          List.length_filter_le _ _
      _ = (pairs.take batchSize).length := List.length_map _ _
      _ ≤ batchSize := List.length_take_le _ _
  · rfl

/-- C6 (counterexample): a CoinGecko response of 51 valid rows makes
`fetchFromGeckoTerminal` return 51 tokens, exceeding `batchSize = 50`,
so the claimed cap does not hold for that adapter. -/
theorem fetchFromGeckoTerminal_exceeds_batchSize :
    (fetchFromGeckoTerminal "T" (List.replicate 51 cgValidSample)).length = 51 ∧
      ¬ ((fetchFromGeckoTerminal "T" (List.replicate 51 cgValidSample)).length ≤ batchSize) := by
  decide

/-- C7: for every token list and page size `k ≥ 1`, concatenating the
pages obtained by walking `next_cursor` from 0 until `has_more` is
false reproduces the whole list in order, and every page reports
`total_count` equal to the list length. -/
theorem pagination_roundtrip (nowMs : ℕ) (tokens : List TokenData) (k : ℕ)
    (limitOpt cursorOpt : Option ℕ) (hk : 1 ≤ k) :
    collectAllPages nowMs tokens k = tokens ∧
      (paginateTokens nowMs tokens limitOpt cursorOpt).total_count = tokens.length := by
  constructor
  · unfold collectAllPages
    rw [walkPages_eq_drop nowMs tokens k hk (tokens.length + 1) 0 (by omega)]
    exact List.drop_zero tokens
  · rfl

/-- C7 (witness): the round trip at a concrete three-token list with
page size 2. -/
theorem pagination_roundtrip_witness :
    collectAllPages 0 [cacheTokA, cacheTokB, prevTok] 2 = [cacheTokA, cacheTokB, prevTok] ∧
      (paginateTokens 0 [cacheTokA, cacheTokB, prevTok] (some 5) (some 1)).total_count =
        ([cacheTokA, cacheTokB, prevTok] : List TokenData).length :=
  pagination_roundtrip 0 [cacheTokA, cacheTokB, prevTok] 2 (some 5) (some 1) (by decide)

/-- C9: every snapshot produced by `mergeTokens` has pairwise-distinct
lowercase token addresses; the number of distinct lowercase addresses
equals the snapshot length. -/
theorem mergeTokens_address_uniqueness (now : String)
    (tokensArrays : List (List TokenData)) :
    ((mergeTokens now tokensArrays).map (fun t => jsToLower t.token_address)).Nodup ∧
      ((mergeTokens now tokensArrays).map
        (fun t => jsToLower t.token_address)).dedup.length =
        (mergeTokens now tokensArrays).length := by
  have h := mergeTokens_lower_addr_nodup now tokensArrays
  refine ⟨h, ?_⟩
  rw [List.dedup_eq_self.mpr h, List.length_map]

/-- C4 (amended): in `mergeTokenData` applied to a DEX-sourced record
`a` and a market-sourced record `b`, the zero-fallback only exists for
the fields merged with `||` (price, market cap, volume, 24h change);
`liquidity` and `transaction_count` always come from the DEX record and
the supply fields always come from the market record, with no fallback. -/
theorem mergeTokenData_precedence_fields (now : String) (a b : TokenData)
    (hA : a.source.contains "dexscreener" = true)
    (hB : b.source.contains "coingecko" = true) :
    (a.price = 0 → (mergeTokenData now a b).price = b.price) ∧
      (¬ (a.price = 0) → (mergeTokenData now a b).price = a.price) ∧
      (b.marketCap = 0 → (mergeTokenData now a b).marketCap = a.marketCap) ∧
      (a.volume24h = 0 → (mergeTokenData now a b).volume24h = b.volume24h) ∧
      (b.priceChange24h = 0 → (mergeTokenData now a b).priceChange24h = a.priceChange24h) ∧
      (mergeTokenData now a b).liquidity = a.liquidity ∧
      (mergeTokenData now a b).circulatingSupply = b.circulatingSupply ∧
      (mergeTokenData now a b).totalSupply = b.totalSupply ∧
      (mergeTokenData now a b).transaction_count = a.transaction_count := by
  unfold mergeTokenData
  simp only [hA, hB, if_true]
  refine ⟨?_, ?_, ?_, ?_, ?_, trivial, trivial, trivial, trivial⟩ <;>
    · intro h
      simp [orQ, h]

/-- C4 (witness): the precedence behaviour at concrete records with a
zero DEX price. -/
theorem mergeTokenData_precedence_fields_witness :
    ((zeroLiqDex.price = 0 →
        (mergeTokenData "T" zeroLiqDex posLiqCg).price = posLiqCg.price) ∧
      (¬ (zeroLiqDex.price = 0) →
        (mergeTokenData "T" zeroLiqDex posLiqCg).price = zeroLiqDex.price) ∧
      (posLiqCg.marketCap = 0 →
        (mergeTokenData "T" zeroLiqDex posLiqCg).marketCap = zeroLiqDex.marketCap) ∧
      (zeroLiqDex.volume24h = 0 →
        (mergeTokenData "T" zeroLiqDex posLiqCg).volume24h = posLiqCg.volume24h) ∧
      (posLiqCg.priceChange24h = 0 →
        (mergeTokenData "T" zeroLiqDex posLiqCg).priceChange24h =
          zeroLiqDex.priceChange24h) ∧
      (mergeTokenData "T" zeroLiqDex posLiqCg).liquidity = zeroLiqDex.liquidity ∧
      (mergeTokenData "T" zeroLiqDex posLiqCg).circulatingSupply =
        posLiqCg.circulatingSupply ∧
      (mergeTokenData "T" zeroLiqDex posLiqCg).totalSupply = posLiqCg.totalSupply ∧
      (mergeTokenData "T" zeroLiqDex posLiqCg).transaction_count =
        zeroLiqDex.transaction_count) :=
  mergeTokenData_precedence_fields "T" zeroLiqDex posLiqCg (by decide) (by decide)

/-- C4 (counterexample): the claimed fallback fails for `liquidity`
(DEX value zero, market value 300, merged value 0) and for
`circulatingSupply` (market value zero, DEX value 500, merged value 0). -/
theorem merge_liquidity_fallback_counterexample :
    zeroLiqDex.liquidity = 0 ∧ posLiqCg.liquidity = 300 ∧
      (mergeTokenData "T" zeroLiqDex posLiqCg).liquidity = 0 ∧
      ¬ ((mergeTokenData "T" zeroLiqDex posLiqCg).liquidity = posLiqCg.liquidity) ∧
      posLiqCg.circulatingSupply = 0 ∧ zeroLiqDex.circulatingSupply = 500 ∧
      (mergeTokenData "T" zeroLiqDex posLiqCg).circulatingSupply = 0 ∧
      ¬ ((mergeTokenData "T" zeroLiqDex posLiqCg).circulatingSupply =
        zeroLiqDex.circulatingSupply) := by
  decide

/-- C5 (amended): the ioredis `setTokens` writes the full list under
`tokens:all` with the requested TTL and one `token:<address>` key with
the same TTL for each of the first 100 records (stated for snapshots
with distinct addresses, none of whose per-token keys collides with the
`tokens:all` key itself). -/
theorem setTokensIoredis_writes_tokensAll_and_top100 (c : Cache)
    (tokens : List TokenData) (ttl : ℕ)
    (hnd : (tokens.map (fun t => t.token_address)).Nodup)
    (hcol : ∀ t ∈ tokens.take 100, "token:" ++ t.token_address ≠ "tokens:all") :
    jsGet (setTokensIoredis c tokens ttl) "tokens:all" =
        some (CacheVal.tokenList tokens, ttl) ∧
      ∀ t ∈ tokens.take 100,
        jsGet (setTokensIoredis c tokens ttl) ("token:" ++ t.token_address) =
          some (CacheVal.singleToken t, ttl) := by
  constructor
  · exact (jsGet_foldl_jsSet_not_written (tokens.take 100)
        (fun t => "token:" ++ t.token_address) (fun t => (CacheVal.singleToken t, ttl))
        "tokens:all" hcol
        (jsSet c "tokens:all" (CacheVal.tokenList tokens, ttl))).trans
      (jsGet_jsSet_self c "tokens:all" (CacheVal.tokenList tokens, ttl))
  · intro t ht
    have h1 : ((tokens.take 100).map (fun t => t.token_address)).Nodup := by
      rw [List.map_take]
      exact hnd.sublist (List.take_sublist 100 _)
    have h2 : (((tokens.take 100).map (fun t => t.token_address)).map
        (fun s => "token:" ++ s)).Nodup :=
      List.Nodup.map (fun s1 s2 hs => string_append_left_cancel "token:" s1 s2 hs) h1
    rw [List.map_map] at h2
    exact jsGet_foldl_jsSet_self (tokens.take 100)
      (fun t => "token:" ++ t.token_address) (fun t => (CacheVal.singleToken t, ttl))
      h2 t ht _

/-- C5 (witness): the ioredis write behaviour at a concrete two-token
snapshot with TTL 30. -/
theorem setTokensIoredis_writes_witness :
    jsGet (setTokensIoredis [] [cacheTokA, cacheTokB] 30) "tokens:all" =
        some (CacheVal.tokenList [cacheTokA, cacheTokB], 30) ∧
      ∀ t ∈ ([cacheTokA, cacheTokB] : List TokenData).take 100,
        jsGet (setTokensIoredis [] [cacheTokA, cacheTokB] 30)
          ("token:" ++ t.token_address) = some (CacheVal.singleToken t, 30) :=
  setTokensIoredis_writes_tokensAll_and_top100 [] [cacheTokA, cacheTokB] 30
    (by decide) (by decide)

/-- C5 (counterexample): the node-redis `setTokens` variant writes only
`tokens:all`; after it runs on a one-token snapshot, the per-token key
of that token is absent, contradicting the claim for this put path. -/
theorem setTokensRedis_writes_no_per_token_keys :
    cacheGetTokens (setTokensRedis [] [cacheTokA] 30) = some [cacheTokA] ∧
      jsGet (setTokensRedis [] [cacheTokA] 30) ("token:" ++ cacheTokA.token_address) =
        none := by
  decide

theorem validToken_addr_ne_empty (t : TokenData) (h : validToken t = true) :
    ¬ (t.token_address = "") := by
  intro he
  unfold validToken at h
  rw [Bool.and_eq_true, decide_eq_true_iff, decide_eq_true_iff] at h
  rw [he] at h
  exact absurd h.1 (by decide)

theorem mergeTokens_pair (now : String) (a b : TokenData)
    (hab : a.token_address = b.token_address) (ha : ¬ (a.token_address = "")) :
    mergeTokens now [[a], [b]] =
      [mergeTokenData now { a with is_merged := false } b] := by
  have hkey : ¬ (jsToLower a.token_address = "") :=
    fun h => ha ((jsToLower_eq_empty_iff _).mp h)
  have hkb : jsToLower b.token_address = jsToLower a.token_address := by rw [hab]
  have h1 : insertToken now [] a =
      [(jsToLower a.token_address, { a with is_merged := false })] := by
    unfold insertToken
    rw [if_neg hkey]
    rfl
  have h2 : insertToken now
      [(jsToLower a.token_address, { a with is_merged := false })] b =
      [(jsToLower a.token_address,
        mergeTokenData now { a with is_merged := false } b)] := by
    unfold insertToken
    rw [hkb, if_neg hkey, jsGet_cons, if_pos rfl]
    show jsSet _ _ _ = _
    rw [jsSet_cons, if_pos rfl]
  show (sortByVolumeDesc ((([[a], [b]] : List (List TokenData)).flatten.foldl
      (insertToken now) []).map (fun p => p.2))).take maxTokens = _
  rw [show ([[a], [b]] : List (List TokenData)).flatten = [a, b] from rfl,
    List.foldl_cons, List.foldl_cons, List.foldl_nil, h1, h2]
  rfl

/-- C8 (amended): merging `[[a],[b]]` and `[[b],[a]]` for valid
same-address records yields single records with the same `sources` set
and the same `token_address`; `token_name` and `token_ticker` are not
preserved across the two orders in general (see the counterexample). -/
theorem mergeTokens_commutes_on_sources_and_address (now : String) (a b : TokenData)
    (hva : validToken a = true) (hvb : validToken b = true)
    (hab : a.token_address = b.token_address) :
    ∃ u v, mergeTokens now [[a], [b]] = [u] ∧ mergeTokens now [[b], [a]] = [v] ∧
      u.token_address = v.token_address ∧ (∀ s, s ∈ u.source ↔ s ∈ v.source) := by
  have ha := validToken_addr_ne_empty a hva
  have hb := validToken_addr_ne_empty b hvb
  refine ⟨_, _, mergeTokens_pair now a b hab ha, mergeTokens_pair now b a hab.symm hb,
    ?_, ?_⟩
  · have h1 := mergeTokenData_token_address_cases now { a with is_merged := false } b
    have h2 := mergeTokenData_token_address_cases now { b with is_merged := false } a
    have hfa : ({ a with is_merged := false } : TokenData).token_address =
        a.token_address := rfl
    have hfb : ({ b with is_merged := false } : TokenData).token_address =
        b.token_address := rfl
    rw [hfa] at h1
    rw [hfb] at h2
    rcases h1 with h1 | h1 <;> rcases h2 with h2 | h2 <;> rw [h1, h2] <;>
      first
        | rfl
        | exact hab
        | exact hab.symm
  · intro s
    have hu : (mergeTokenData now { a with is_merged := false } b).source =
        jsSetDedup (a.source ++ b.source) := rfl
    have hv : (mergeTokenData now { b with is_merged := false } a).source =
        jsSetDedup (b.source ++ a.source) := rfl
    rw [hu, hv, mem_jsSetDedup, mem_jsSetDedup, List.mem_append, List.mem_append]
    tauto

/-- C8 (witness): the commuting part at the concrete records Alpha
(dexscreener) and Beta (coingecko). -/
theorem mergeTokens_commutes_witness :
    ∃ u v, mergeTokens "T" [[alphaTok], [betaTok]] = [u] ∧
      mergeTokens "T" [[betaTok], [alphaTok]] = [v] ∧
      u.token_address = v.token_address ∧ (∀ s, s ∈ u.source ↔ s ∈ v.source) :=
  mergeTokens_commutes_on_sources_and_address "T" alphaTok betaTok
    (by decide) (by decide) (by decide)

/-- C8 (counterexample): for the valid same-address records Alpha
(dexscreener) and Beta (coingecko), the two merge orders produce
records with different `token_name` and `token_ticker`, so the claimed
equality of names and tickers fails. -/
theorem mergeTokens_commutativity_name_counterexample :
    validToken alphaTok = true ∧ validToken betaTok = true ∧
      alphaTok.token_address = betaTok.token_address ∧
      (mergeTokens "T" [[alphaTok], [betaTok]]).map (fun t => t.token_name) = ["Alpha"] ∧
      (mergeTokens "T" [[betaTok], [alphaTok]]).map (fun t => t.token_name) = ["Beta"] ∧
      (mergeTokens "T" [[alphaTok], [betaTok]]).map (fun t => t.token_ticker) = ["AT"] ∧
      (mergeTokens "T" [[betaTok], [alphaTok]]).map (fun t => t.token_ticker) = ["BT"] := by
  decide

/-- C10: a `subscribe_tokens` or `unsubscribe_tokens` message from an
unknown connection, or one without a `tokens` field, leaves the
`connectedClients` map unchanged; and any such message leaves every
other connection's entry untouched. -/
theorem subscription_handlers_frame (m : List (String × ClientInfo)) (socketId : String)
    (tokens : Option (List String)) (j : String) (hj : j ≠ socketId) :
    (jsGet m socketId = none →
        onSubscribeTokens m socketId tokens = m ∧
          onUnsubscribeTokens m socketId tokens = m) ∧
      (onSubscribeTokens m socketId none = m ∧ onUnsubscribeTokens m socketId none = m) ∧
      (jsGet (onSubscribeTokens m socketId tokens) j = jsGet m j ∧
        jsGet (onUnsubscribeTokens m socketId tokens) j = jsGet m j) := by
  refine ⟨?_, ?_, ?_⟩
  · intro h
    constructor
    · unfold onSubscribeTokens
      rw [h]
    · unfold onUnsubscribeTokens
      rw [h]
  · constructor
    · unfold onSubscribeTokens
      rcases jsGet m socketId with _ | client <;> rfl
    · unfold onUnsubscribeTokens
      rcases jsGet m socketId with _ | client <;> rfl
  · constructor
    · unfold onSubscribeTokens
      rcases hc : jsGet m socketId with _ | client
      · rfl
      · rcases tokens with _ | ts
        · rfl
        · exact jsGet_jsSet_ne m socketId j _ hj
    · unfold onUnsubscribeTokens
      rcases hc : jsGet m socketId with _ | client
      · rfl
      · rcases tokens with _ | ts
        · rfl
        · exact jsGet_jsSet_ne m socketId j _ hj

/-- C10 (witness): the frame conditions at a concrete one-client map,
probed with an unknown connection id. -/
theorem subscription_handlers_frame_witness :
    (jsGet [("s1", clientOne)] "s2" = none →
        onSubscribeTokens [("s1", clientOne)] "s2" (some ["AAA"]) = [("s1", clientOne)] ∧
          onUnsubscribeTokens [("s1", clientOne)] "s2" (some ["AAA"]) =
            [("s1", clientOne)]) ∧
      (onSubscribeTokens [("s1", clientOne)] "s2" none = [("s1", clientOne)] ∧
        onUnsubscribeTokens [("s1", clientOne)] "s2" none = [("s1", clientOne)]) ∧
      (jsGet (onSubscribeTokens [("s1", clientOne)] "s2" (some ["AAA"])) "s1" =
          jsGet [("s1", clientOne)] "s1" ∧
        jsGet (onUnsubscribeTokens [("s1", clientOne)] "s2" (some ["AAA"])) "s1" =
          jsGet [("s1", clientOne)] "s1") :=
  subscription_handlers_frame [("s1", clientOne)] "s2" (some ["AAA"]) "s1" (by decide)

end MemeAgg
